import Mathlib

/-!
# Verification of the input-remapper GUI editor core

This development gives a shallow embedding of the two subsystems covered by
the specification of the `input-remapper` repository:

* the macro-DSL cursor analyzer and suggestion engine
  (`src/inputremapper/gui/editors/autocompletion.py`), and
* the combination recorder / mapping-edit logic
  (`src/inputremapper/gui/editors/base.py`, `EditableMapping`).

Python strings are embedded as `List Char`.  The two Python regular
expressions

* `PARAMETER      = r".*?[(,=]\s*"`
* `FUNCTION_CHAIN = r".*?\)\s*\.\s*"`

are used only through `re.match(rf"(?:{FUNCTION_CHAIN}|{PARAMETER}|^)(\w+)$", t)`
and `re.match(rf"(?:{PARAMETER}|^)(\w+)$", t)`.  These anchored patterns are
embedded by their denotation: the group `(\w+)$` is necessarily the maximal
trailing run of word characters (every character that may precede it in any
alternative — `.`, `(`, `,`, `=`, `)` or whitespace — is a non-word
character), the `\s*` parts are forced to consume the whole whitespace run
in front of that word run (the characters `.`, `(`, `,`, `=`, `)` that must
precede them are not whitespace), and the lazy `.*?` prefix can match any
remaining characters except a newline.  The functions below compute exactly
that denotation.
-/

/-- Python `\w` on the character sets appearing in this program:
letters, digits and underscore. -/
def isWordChar (c : Char) : Bool :=
  c.isAlphanum || c = '_'

/-- Python `\s`: space, tab, newline, carriage return, form feed,
vertical tab. -/
def isSpaceChar (c : Char) : Bool :=
  c = ' ' || c = '\t' || c = '\n' || c = '\r' || c = '\x0c' || c = '\x0b'

/-- Modelled from the spec: `remove_comments` from
`inputremapper.injection.macros.parse` is imported by the autocompletion
module but its source is not part of the provided files.  The spec (§4.4
step 2) says DSL comments are stripped before pattern matching; the DSL
comment delimiter is `#`, running to the end of the line. -/
def removeCommentsAux : Nat → List Char → List Char
  | 0, _ => []
  | _, [] => []
  | fuel + 1, c :: rest =>
    if c = '#' then removeCommentsAux fuel (rest.dropWhile (fun d => d ≠ '\n'))
    else c :: removeCommentsAux fuel rest

/-- Modelled from the spec (see `removeCommentsAux`); the fuel
`cs.length` suffices because every step consumes at least one character. -/
def remove_comments (cs : List Char) : List Char :=
  removeCommentsAux cs.length cs

/-- Modelled from the spec: `remove_whitespaces` from
`inputremapper.injection.macros.parse` is imported by the autocompletion
module but its source is not part of the provided files.  The spec (§4.4
step 2) says all whitespace is stripped from the left-of-cursor text before
pattern matching. -/
def remove_whitespaces (cs : List Char) : List Char :=
  cs.filter (fun c => !isSpaceChar c)

/-- `_get_left_text`: slice the buffer text up to the cursor, strip comments,
strip whitespace, lower-case (autocompletion.py lines 45-50). -/
def get_left_text (text : List Char) (cursor : Nat) : List Char :=
  ((remove_whitespaces (remove_comments (text.take cursor))).map Char.toLower)

/-- The maximal trailing run of word characters of `cs`
(the only candidate for the anchored group `(\w+)$`). -/
def trailingWordRun (cs : List Char) : List Char :=
  (cs.reverse.takeWhile isWordChar).reverse

/-- Everything of `cs` in front of `trailingWordRun cs`, reversed
(nearest character first). -/
def beforeRunRev (cs : List Char) : List Char :=
  cs.reverse.dropWhile isWordChar

/-- Whether the reversed pre-run text matches the reverse of
`.*?\)\s*\.\s*` — i.e. optional whitespace, a chain dot, optional
whitespace, a closing paren, and then an arbitrary newline-free prefix
(`.` does not match `\n`). -/
def chainDotBefore (restRev : List Char) : Bool :=
  match restRev.dropWhile isSpaceChar with
  | '.' :: r2 =>
    match r2.dropWhile isSpaceChar with
    | ')' :: r3 => r3.all (fun c => c ≠ '\n')
    | _ => false
  | _ => false

/-- Whether the reversed pre-run text matches the reverse of
`.*?[(,=]\s*` — optional whitespace, then `(`, `,` or `=`, and then an
arbitrary newline-free prefix. -/
def parameterBefore (restRev : List Char) : Bool :=
  match restRev.dropWhile isSpaceChar with
  | c :: r2 => (c = '(' || c = ',' || c = '=') && r2.all (fun d => d ≠ '\n')
  | [] => false

/-- Denotation of `re.match(rf"(?:{FUNCTION_CHAIN}|{PARAMETER}|^)(\w+)$", cs)`:
the returned group, if the pattern matches. -/
def matchIncompleteFunctionName (cs : List Char) : Option (List Char) :=
  let run := trailingWordRun cs
  let restRev := beforeRunRev cs
  if run.isEmpty then none
  else if restRev.isEmpty then some run
  else if chainDotBefore restRev || parameterBefore restRev then some run
  else none

/-- Denotation of `re.match(rf"(?:{PARAMETER}|^)(\w+)$", cs)`. -/
def matchIncompleteParameter (cs : List Char) : Option (List Char) :=
  let run := trailingWordRun cs
  let restRev := beforeRunRev cs
  if run.isEmpty then none
  else if restRev.isEmpty then some run
  else if parameterBefore restRev then some run
  else none

/-- `get_incomplete_function_name` (autocompletion.py lines 58-75): returns
the matched trailing identifier, or the empty string when the pattern does
not match. -/
def get_incomplete_function_name (text : List Char) (cursor : Nat) : List Char :=
  match matchIncompleteFunctionName (get_left_text text cursor) with
  | some run => run
  | none => []

/-- `get_incomplete_parameter` (autocompletion.py lines 78-92): returns the
matched trailing identifier, or `None` when the pattern does not match. -/
def get_incomplete_parameter (text : List Char) (cursor : Nat) :
    Option (List Char) :=
  matchIncompleteParameter (get_left_text text cursor)

/-!
## Suggestion engine

`FUNCTIONS`, `get_macro_argument_names` (from
`inputremapper.injection.macros.parse`) and `system_mapping.list_names` are
external collaborators of the autocompletion module whose sources are not
among the provided files.  Following the spec (§3 `FunctionSignature`, §6
function registry / symbol table), the registry is a finite map from
function name to its ordered parameter-name list, embedded as an
association list, and the symbol table is a list of names.  The proposal
operations are parameterised by them.
-/

/-- Modelled from the spec: the function registry (`FUNCTIONS` together with
`get_macro_argument_names`), a mapping of function name → parameter-name
list built once at startup. -/
abbrev FunctionRegistry := List (String × List String)

/-- Whether `pat` occurs at the start of `s` (character-wise). -/
def leadsList : List Char → List Char → Bool
  | [], _ => true
  | _ :: _, [] => false
  | a :: as, b :: bs => a == b && leadsList as bs

/-- Python's substring test `pat in s` on embedded strings. -/
def isSubstrOf (pat : List Char) : List Char → Bool
  | [] => pat.isEmpty
  | b :: rest => leadsList pat (b :: rest) || isSubstrOf pat rest

/-- `FUNCTION_NAMES` (autocompletion.py lines 39-42): registry keys longer
than one character, with the deprecated `"ifeq"` removed.  (`list.remove`
drops the first occurrence; the real registry always contains `"ifeq"`.) -/
def function_names (reg : FunctionRegistry) : List String :=
  ((reg.map Prod.fst).filter (fun n => n.length > 1)).erase "ifeq"

/-- `propose_symbols` (autocompletion.py lines 95-108). -/
def propose_symbols (symbolNames : List String) (text : List Char)
    (cursor : Nat) : List (String × String) :=
  match get_incomplete_parameter text cursor with
  | none => []
  | some run =>
    if run.length ≤ 2 then []
    else
      let inc := run.map Char.toLower
      (symbolNames.filter (fun name =>
        let low := name.data.map Char.toLower
        isSubstrOf inc low && !(inc == low))).map (fun name => (name, name))

/-- `propose_function_names` (autocompletion.py lines 111-124).  The second
component is the display label `f"{name}({', '.join(...)})"`; the lookup of
the parameter names always succeeds for a registry key, `[]` is the
unreachable default. -/
def propose_function_names (reg : FunctionRegistry) (text : List Char)
    (cursor : Nat) : List (String × String) :=
  let incomplete := get_incomplete_function_name text cursor
  if incomplete.length ≤ 1 then []
  else
    let inc := incomplete.map Char.toLower
    ((function_names reg).filter (fun name =>
      let low := name.data.map Char.toLower
      isSubstrOf inc low && !(inc == low))).map
      (fun name =>
        (name,
          name ++ "(" ++ String.intercalate ", " ((reg.lookup name).getD []) ++ ")"))

/-- Denotation of `re.findall(r"(\w+)=", cs)`: with a leftmost scan and a
greedy `\w+`, every match captures a maximal word-character run that is
immediately followed by `=` (a shorter capture would have to be followed by
`=` where a word character stands).  Fuel: each step consumes at least one
character. -/
def findallNameEqAux : Nat → List Char → List String
  | 0, _ => []
  | _, [] => []
  | fuel + 1, c :: rest =>
    if isWordChar c then
      let run := c :: rest.takeWhile isWordChar
      match rest.dropWhile isWordChar with
      | '=' :: rest2 => String.mk run :: findallNameEqAux fuel rest2
      | after => findallNameEqAux fuel after
    else findallNameEqAux fuel rest

/-- `used_parameters = re.findall(r"(\w+)=", left_text[i:])`
(autocompletion.py line 160). -/
def findall_used_parameters (cs : List Char) : List String :=
  findallNameEqAux cs.length cs

/-- The right-to-left scan of `propose_function_parameters` (autocompletion.py
lines 136-157): `for i in range(len(left_text) - 1, 0, -1)` — index `0` is
never visited — looking for an `(` at bracket depth `0`; `)` increments and
any other `(` decrements the depth. -/
def find_unmatched_open (left : List Char) : Nat → Int → Option Nat
  | 0, _ => none
  | i + 1, brackets =>
    match left[i + 1]? with
    | none => find_unmatched_open left i brackets
    | some c =>
      if c = '(' && brackets == 0 then some (i + 1)
      else
        let b1 : Int := if c = ')' then brackets + 1 else brackets
        let b2 : Int := if c = '(' then b1 - 1 else b1
        find_unmatched_open left i b2

/-- `propose_function_parameters` (autocompletion.py lines 127-173).  When
the scan finds no unmatched `(`, `function_name` stays `""` and the loop
variable `i` keeps its last value: `1` when the text has at least two
characters, otherwise its initialisation `0`. -/
def propose_function_parameters (reg : FunctionRegistry) (text : List Char)
    (cursor : Nat) : List (String × String) :=
  let left := get_left_text text cursor
  match find_unmatched_open left (left.length - 1) 0 with
  | some i =>
    match matchIncompleteFunctionName (left.take i) with
    | none => []
    | some fname =>
      let used := findall_used_parameters (left.drop i)
      match reg.lookup (String.mk fname) with
      | none => []
      | some params =>
        (params.filter (fun name => !(used.contains name))).map
          (fun name => (name ++ "=", name ++ "="))
  | none =>
    let i := if left.length ≥ 2 then 1 else 0
    let used := findall_used_parameters (left.drop i)
    match reg.lookup "" with
    | none => []
    | some params =>
      (params.filter (fun name => !(used.contains name))).map
        (fun name => (name ++ "=", name ++ "="))

/-- The suggestion list assembled by `Autocompletion.update`
(autocompletion.py lines 349-352): function-name proposals, then symbol
proposals, then parameter proposals, concatenated. -/
def update_suggestions (reg : FunctionRegistry) (symbolNames : List String)
    (text : List Char) (cursor : Nat) : List (String × String) :=
  propose_function_names reg text cursor
    ++ propose_symbols symbolNames text cursor
    ++ propose_function_parameters reg text cursor

/-- The text spliced into the buffer when a suggestion is accepted: the
click handler built in `Autocompletion.update` (line 366) passes the first
tuple component to `_on_suggestion_clicked` (lines 371-402), which inserts
exactly that string after removing the word characters around the cursor. -/
def inserted_text (suggestion : String × String) : String := suggestion.1

/-- The label shown on the suggestion's button (autocompletion.py
lines 361-362): the second tuple component. -/
def displayed_text (suggestion : String × String) : String := suggestion.2

/-- First-seen-order de-duplication, following the words of the spec (§4.5
"de-duplicated, in first-seen order"); the code has no counterpart, the
definition exists to state the spec's claimed assembly. -/
def firstSeenDedup (l : List (String × String)) : List (String × String) :=
  l.foldl (fun acc x => if acc.contains x then acc else acc ++ [x]) []

-- Sanity checks of the analyzer on the spec's concrete scenarios.
example : get_incomplete_function_name "a().b".data 5 = "b".data := by decide
example : get_incomplete_parameter "foo(bar, qu".data 11 = some "qu".data := by
  decide
example : get_incomplete_function_name "".data 0 = [] := by decide
example : get_incomplete_parameter "".data 0 = none := by decide
example : get_incomplete_function_name "bar().\nfoo".data 10 = "foo".data := by
  decide
example : get_incomplete_parameter "bar baz".data 7 = some "barbaz".data := by
  decide
example : get_incomplete_parameter "foo)".data 4 = none := by decide
example : get_incomplete_parameter "a().b".data 5 = none := by decide

/-!
## Combination recorder (`EditableMapping`, base.py lines 37-265)

The recorder logic of `EditableMapping.consume_newest_keycode` and
`EditableMapping._switch_focus_if_complete` is embedded as a step function
on an explicit state.  The key type `K` is abstract: `Key` objects
(`inputremapper.key`) are an external value type; the embedding only needs
decidable equality, the `is_problematic` predicate and the `beautify`
rendering, which are taken as parameters.  `custom_mapping`
(`inputremapper.gui.custom_mapping`) is not among the provided sources; its
`get_symbol` and `change` operations are modelled from the spec (§4.2
`MappingStore`): an insertion-ordered association table with unique
combinations.  `GLib.idle_add` deferrals are modelled as a count of
scheduled idle actions returned by the step, not as a state change: the
focus field of the state is only modified by `run_idle_focus_switch`, the
embedding of the deferred action itself.
-/

/-- Status-message contexts `CTX_KEYCODE` and `CTX_WARNING` from
`inputremapper.gui.utils` (opaque tags, the module is not among the
provided sources). -/
inductive StatusCtx
  | keycode
  | warning
deriving DecidableEq, Repr

/-- The external collaborators of a recording slot: the `Key` value type's
`is_problematic` predicate and `beautify` rendering (spec §3
`KeyCombination`, §4.1). -/
structure RecorderEnv (K : Type) where
  is_problematic : K → Bool
  beautify : K → String

/-- The mutable state read and written by `EditableMapping`:
the mapping store, the slot's displayed key (`get_key`/`set_key`), the text
input's contents (`get_symbol`; the empty string is Python-falsy), the
`input_has_arrived` flag, whether the recording toggle is active
(`_is_waiting_for_input`), whether the reader currently reports no
unreleased keys (`reader.get_unreleased_keys() is None`), and whether the
window focus is on the text input. -/
structure RecorderState (K : Type) where
  custom_mapping : List (K × String)
  displayed_key : Option K
  symbol_text : String
  input_has_arrived : Bool
  waiting_for_input : Bool
  unreleased_keys_empty : Bool
  focused_text_input : Bool

/-- Everything one call of `consume_newest_keycode` does: the successor
state, the `show_status` calls in order, the arguments of the
`custom_mapping.change` call if one was made, and how many focus switches
were scheduled on the idle loop via `GLib.idle_add`. -/
structure StepEffects (K : Type) where
  state : RecorderState K
  statuses : List (StatusCtx × String)
  change_call : Option (K × String × Option K)
  idle_focus_switches : Nat

variable {K : Type} [DecidableEq K]

/-- Modelled from the spec (§4.2): `MappingStore.change(new, symbol,
previous)`.  `custom_mapping` is not among the provided sources.  If
`previous` is given and differs from `new`, the old entry is removed first;
a conflicting write (an entry for `new` with a different symbol that is not
the `previous` entry) is rejected, leaving the store unchanged (§4.3:
"the second writer's `change` fails ... and the offending slot's key is not
overwritten"); otherwise the entry for `new` is written, in place when
`new` is already present, appended otherwise. -/
def store_change (store : List (K × String)) (new : K) (symbol : String)
    (previous : Option K) : List (K × String) :=
  match store.lookup new with
  | some s' =>
    if s' ≠ symbol ∧ previous ≠ some new then store
    else
      let store1 := match previous with
        | some p => if p ≠ new then store.filter (fun e : K × String => !(e.1 == p)) else store
        | none => store
      store1.map (fun e : K × String => if e.1 == new then (new, symbol) else e)
  | none =>
    let store1 := match previous with
      | some p => if p ≠ new then store.filter (fun e : K × String => !(e.1 == p)) else store
      | none => store
    store1 ++ [(new, symbol)]

/-- The duplicate-combination status message (base.py lines 191-192):
`f'"{key.beautify()}" already mapped to "{existing}"'` where `existing` has
all whitespace removed by `re.sub(r"\s", "", existing)`. -/
def dup_message (env : RecorderEnv K) (k : K) (existing : String) : String :=
  "\"" ++ env.beautify k ++ "\" already mapped to \""
    ++ String.mk (remove_whitespaces existing.data) ++ "\""

/-- The modifier warning (base.py lines 197-204); the detail text of the
three-part status tuple is elided. -/
def modifier_warning : String :=
  "ctrl, alt and shift may not combine properly"

/-- `_switch_focus_if_complete` (base.py lines 233-261): returns the
successor state and the number of focus switches scheduled via
`GLib.idle_add`.  `self.get_key()` is truthy exactly when a key is
displayed (a `Key` is a non-empty tuple). -/
def switch_focus_if_complete (s : RecorderState K) : RecorderState K × Nat :=
  if !s.waiting_for_input then ({ s with input_has_arrived := false }, 0)
  else
    let all_released := s.unreleased_keys_empty
    let scheduled :=
      if all_released && s.input_has_arrived && s.displayed_key.isSome then 1
      else 0
    if !all_released then ({ s with input_has_arrived := true }, scheduled)
    else ({ s with input_has_arrived := false }, scheduled)

/-- `consume_newest_keycode` (base.py lines 166-231): the recorder's
reaction to one reader poll delivering `key` (`None` when no new event
arrived this tick). -/
def consume_newest_keycode (env : RecorderEnv K) (s : RecorderState K)
    (key : Option K) : StepEffects K :=
  let s1 := (switch_focus_if_complete s).1
  let scheduled := (switch_focus_if_complete s).2
  match key with
  | none => ⟨s1, [], none, scheduled⟩
  | some k =>
    if !s1.waiting_for_input then ⟨s1, [], none, scheduled⟩
    else
      match s1.custom_mapping.lookup k with
      | some existing =>
        ⟨s1, [(StatusCtx.keycode, dup_message env k existing)], none, scheduled⟩
      | none =>
        let warn :=
          if env.is_problematic k then [(StatusCtx.warning, modifier_warning)]
          else []
        let previous := s1.displayed_key
        let s2 := { s1 with input_has_arrived := true }
        if some k = previous then ⟨s2, warn, none, scheduled⟩
        else
          let s3 := { s2 with displayed_key := some k }
          if s3.symbol_text = "" then ⟨s3, warn, none, scheduled⟩
          else
            ⟨{ s3 with
                custom_mapping :=
                  store_change s3.custom_mapping k s3.symbol_text previous },
              warn, some (k, s3.symbol_text, previous), scheduled⟩

/-- The deferred action scheduled by `GLib.idle_add` in
`_switch_focus_if_complete` (base.py line 253): executed by the UI loop at
its next idle tick, it moves the window focus to the text input. -/
def run_idle_focus_switch (s : RecorderState K) : RecorderState K :=
  { s with focused_text_input := true }

/-!
## Helper lemmas
-/

theorem charOfNatToNat (m : Nat) (hv : m.isValidChar) :
    (Char.ofNat m).toNat = m := by
  rw [Char.ofNat, dif_pos hv]
  simp [Char.ofNatAux, Char.toNat, UInt32.toNat]

theorem toLower_eq_newline (c : Char) : Char.toLower c = '\n' → c = '\n' := by
  unfold Char.toLower
  intro h
  by_cases hc : c.toNat ≥ 65 ∧ c.toNat ≤ 90
  · rw [if_pos hc] at h
    exfalso
    have hv : (c.toNat + 32).isValidChar := Or.inl (by omega)
    have h2 := congrArg Char.toNat h
    rw [charOfNatToNat _ hv] at h2
    have h3 : ('\n').toNat = 10 := by decide
    omega
  · rwa [if_neg hc] at h

/-- The normalized left-of-cursor text contains no newline: whitespace was
filtered out before lower-casing, and lower-casing never produces one. -/
theorem get_left_text_no_newline (text : List Char) (cursor : Nat) :
    ∀ c ∈ get_left_text text cursor, c ≠ '\n' := by
  intro c hc
  simp only [get_left_text, List.mem_map] at hc
  obtain ⟨d, hd, rfl⟩ := hc
  simp only [remove_whitespaces, List.mem_filter] at hd
  intro h
  have hdn : d = '\n' := toLower_eq_newline d h
  subst hdn
  simp [isSpaceChar] at hd

theorem takeWhile_append_eq (p : Char → Bool) (xs : List Char) (y : Char)
    (ys : List Char) (h : ∀ x ∈ xs, p x = true) (hy : p y = false) :
    (xs ++ y :: ys).takeWhile p = xs ∧ (xs ++ y :: ys).dropWhile p = y :: ys := by
  induction xs with
  | nil => simp [List.takeWhile, List.dropWhile, hy]
  | cons a as ih =>
    have ha : p a = true := h a (by simp)
    have hrest := ih (fun x hx => h x (by simp [hx]))
    simp [List.takeWhile_cons, List.dropWhile_cons, ha, hrest.1, hrest.2]

/-- `_switch_focus_if_complete` only touches `input_has_arrived`. -/
theorem switch_focus_preserves {K : Type} (s : RecorderState K) :
    (switch_focus_if_complete s).1.custom_mapping = s.custom_mapping ∧
    (switch_focus_if_complete s).1.displayed_key = s.displayed_key ∧
    (switch_focus_if_complete s).1.symbol_text = s.symbol_text ∧
    (switch_focus_if_complete s).1.waiting_for_input = s.waiting_for_input ∧
    (switch_focus_if_complete s).1.unreleased_keys_empty = s.unreleased_keys_empty ∧
    (switch_focus_if_complete s).1.focused_text_input = s.focused_text_input := by
  unfold switch_focus_if_complete
  by_cases h1 : s.waiting_for_input <;> by_cases h2 : s.unreleased_keys_empty <;>
    simp [h1, h2]

/-!
## Concrete instances used by counterexamples and witnesses
-/

/-- A registry with the `key(symbol)` macro function (and the deprecated
`ifeq` that the module-level code removes). -/
def regKey : FunctionRegistry := [("key", ["symbol"]), ("ifeq", ["value"])]

/-- A registry with a `foo(bar, qux)` function, for the spec's
`"foo(bar, qu"` scenario. -/
def regFoo : FunctionRegistry := [("foo", ["bar", "qux"]), ("ifeq", ["value"])]

/-- A concrete recorder environment over `Nat` keys. -/
def envNat : RecorderEnv Nat := ⟨fun _ => false, fun _ => "a"⟩

/-- Focused slot, store already maps combination `1` to `"x"`. -/
def sDup : RecorderState Nat :=
  ⟨[(1, "x")], none, "y", false, true, false, false⟩

/-- Focused slot showing key `1`, store maps a different combination `5`
to `"x"`, output text `"y"`. -/
def sOther : RecorderState Nat :=
  ⟨[(5, "x")], some 1, "y", false, true, false, false⟩

/-- Focused slot, at least one event arrived, all keys released,
a combination displayed. -/
def sDone : RecorderState Nat :=
  ⟨[], some 1, "", true, true, true, false⟩

/-!
## Claims
-/

/-- C3 counterexample: for the buffer `"key(sym"` with cursor at the end,
the assembled suggestion list is *not* the first-seen de-duplication of
function matches, then parameter matches, then symbol matches — the code
concatenates symbol matches *before* parameter matches and never
de-duplicates. -/
theorem C3_counterexample :
    update_suggestions regKey ["symbol"] "key(sym".data 7 ≠
      firstSeenDedup (propose_function_names regKey "key(sym".data 7
        ++ propose_function_parameters regKey "key(sym".data 7
        ++ propose_symbols ["symbol"] "key(sym".data 7) := by
  decide

/-- C3 (amended): the assembled suggestion list is the plain concatenation,
in this fixed order, of function-name matches, then symbol-name matches,
then parameter-name matches, with no de-duplication (duplicates are
retained, as the duplicated symbol table shows). -/
theorem C3_amended_assembly :
    (∀ (reg : FunctionRegistry) (symbolNames : List String)
        (text : List Char) (cursor : Nat),
      update_suggestions reg symbolNames text cursor =
        propose_function_names reg text cursor
          ++ propose_symbols symbolNames text cursor
          ++ propose_function_parameters reg text cursor) ∧
    update_suggestions regKey ["symbol", "symbol"] "key(sym".data 7 =
      [("symbol", "symbol"), ("symbol", "symbol"), ("symbol=", "symbol=")] :=
  ⟨fun _ _ _ _ => rfl, by decide⟩

/-- C4 counterexample: `"ke"` yields the function suggestion for `key`
whose inserted text is the bare name `"key"`, not the parenthesized
`"key(symbol)"` the claim asserts (that string is only the display
label). -/
theorem C4_counterexample :
    ("key", "key(symbol)") ∈ propose_function_names regKey "ke".data 2 ∧
    inserted_text ("key", "key(symbol)") ≠ "key(symbol)" := by
  decide

/-- C4 (amended): for an accepted function suggestion the inserted text is
the bare function name (the parenthesized parameter list is only the
display label); for a parameter suggestion the inserted text is `name=`;
for a symbol suggestion it is the bare symbol name. -/
theorem C4_amended_insertions :
    (∀ (reg : FunctionRegistry) (text : List Char) (cursor : Nat)
        (s : String × String), s ∈ propose_function_names reg text cursor →
      inserted_text s ∈ function_names reg ∧
      displayed_text s = inserted_text s ++ "("
        ++ String.intercalate ", " ((reg.lookup (inserted_text s)).getD [])
        ++ ")") ∧
    (∀ (reg : FunctionRegistry) (text : List Char) (cursor : Nat)
        (s : String × String),
      s ∈ propose_function_parameters reg text cursor →
      ∃ name, s = (name ++ "=", name ++ "=")) ∧
    (∀ (symbolNames : List String) (text : List Char) (cursor : Nat)
        (s : String × String), s ∈ propose_symbols symbolNames text cursor →
      inserted_text s = displayed_text s ∧ inserted_text s ∈ symbolNames) := by
  refine ⟨?_, ?_, ?_⟩
  · intro reg text cursor s hs
    simp only [propose_function_names] at hs
    split at hs
    · simp at hs
    · obtain ⟨name, hname, rfl⟩ := List.mem_map.mp hs
      exact ⟨(List.mem_filter.mp hname).1, rfl⟩
  · intro reg text cursor s hs
    simp only [propose_function_parameters] at hs
    split at hs
    · split at hs
      · simp at hs
      · split at hs
        · simp at hs
        · obtain ⟨name, hname, rfl⟩ := List.mem_map.mp hs
          exact ⟨name, rfl⟩
    · split at hs
      · simp at hs
      · obtain ⟨name, hname, rfl⟩ := List.mem_map.mp hs
        exact ⟨name, rfl⟩
  · intro symbolNames text cursor s hs
    simp only [propose_symbols] at hs
    split at hs
    · simp at hs
    · split at hs
      · simp at hs
      · obtain ⟨name, hname, rfl⟩ := List.mem_map.mp hs
        exact ⟨rfl, (List.mem_filter.mp hname).1⟩

/-- Witness for C4 (amended), instantiating the three parts at concrete
suggestions. -/
theorem C4_witness :
    (inserted_text ("key", "key(symbol)") ∈ function_names regKey ∧
      displayed_text ("key", "key(symbol)")
        = inserted_text ("key", "key(symbol)") ++ "("
          ++ String.intercalate ", "
            ((regKey.lookup (inserted_text ("key", "key(symbol)"))).getD [])
          ++ ")") ∧
    (∃ name, (("symbol=", "symbol=") : String × String)
        = (name ++ "=", name ++ "=")) ∧
    (inserted_text ("symbol", "symbol") = displayed_text ("symbol", "symbol") ∧
      inserted_text ("symbol", "symbol") ∈ ["symbol"]) :=
  ⟨C4_amended_insertions.1 regKey "ke".data 2 _ (by decide),
   C4_amended_insertions.2.1 regKey "key(".data 4 ("symbol=", "symbol=")
     (by decide),
   C4_amended_insertions.2.2 ["symbol"] "key(sym".data 7 ("symbol", "symbol")
     (by decide)⟩

/-- C5 counterexample: for `"foo(bar, qu"` the positional argument `bar` is
*not* collected as a used parameter (the scan only collects `name=`
occurrences), so `bar=` is still among the parameter suggestions, contrary
to the claim that `{"bar"}` is excluded. -/
theorem C5_counterexample :
    get_incomplete_parameter "foo(bar, qu".data 11 = some "qu".data ∧
    ("bar=", "bar=") ∈ propose_function_parameters regFoo "foo(bar, qu".data 11 := by
  decide

/-- C5 (amended): for `"foo(bar, qu"` with the cursor at the end the
analyzer reports the incomplete parameter `"qu"` and identifies `"foo"` as
the enclosing function (the unmatched `(` is at index 3 of the normalized
text), but the already-used parameter set — collected only from `name=`
occurrences right of that boundary — is empty, so `bar` is not excluded:
the parameter suggestions are `bar=` and `qux=`. -/
theorem C5_amended_analysis :
    get_incomplete_parameter "foo(bar, qu".data 11 = some "qu".data ∧
    find_unmatched_open (get_left_text "foo(bar, qu".data 11)
        ((get_left_text "foo(bar, qu".data 11).length - 1) 0 = some 3 ∧
    matchIncompleteFunctionName ((get_left_text "foo(bar, qu".data 11).take 3)
        = some "foo".data ∧
    findall_used_parameters ((get_left_text "foo(bar, qu".data 11).drop 3) = [] ∧
    propose_function_parameters regFoo "foo(bar, qu".data 11
        = [("bar=", "bar="), ("qux=", "qux=")] := by
  decide

/-- C8: for `"a().b"` with the cursor at the end the analyzer reports the
incomplete function name `"b"`; in general, a trailing identifier that
immediately follows a closing parenthesis and a method-chain dot in the
comment- and whitespace-stripped left text is matched as an incomplete
function name. -/
theorem C8_chain_dot_function_name :
    get_incomplete_function_name "a().b".data 5 = "b".data ∧
    ∀ (text : List Char) (cursor : Nat) (A W : List Char),
      get_left_text text cursor = A ++ ')' :: '.' :: W → W ≠ [] →
      (∀ c ∈ W, isWordChar c = true) →
      get_incomplete_function_name text cursor = W := by
  constructor
  · decide
  · intro text cursor A W hL hW hWall
    have hrev : (get_left_text text cursor).reverse
        = W.reverse ++ '.' :: ')' :: A.reverse := by
      rw [hL]; simp
    have hword : ∀ c ∈ W.reverse, isWordChar c = true := by
      intro c hc; exact hWall c (List.mem_reverse.mp hc)
    have hdot : isWordChar '.' = false := by decide
    have htd := takeWhile_append_eq isWordChar W.reverse '.' (')' :: A.reverse)
      hword hdot
    have hrun : trailingWordRun (get_left_text text cursor) = W := by
      rw [trailingWordRun, hrev, htd.1, List.reverse_reverse]
    have hbefore : beforeRunRev (get_left_text text cursor)
        = '.' :: ')' :: A.reverse := by
      rw [beforeRunRev, hrev, htd.2]
    have hA : A.reverse.all (fun c => decide (c ≠ '\n')) = true := by
      rw [List.all_eq_true]
      intro c hc
      simp only [decide_eq_true_eq]
      exact get_left_text_no_newline text cursor c
        (by rw [hL]; exact List.mem_append_left _ (List.mem_reverse.mp hc))
    have hchain : chainDotBefore ('.' :: ')' :: A.reverse) = true := by
      unfold chainDotBefore
      have h1 : isSpaceChar '.' = false := by decide
      have h2 : isSpaceChar ')' = false := by decide
      simp only [List.dropWhile_cons, h1, Bool.false_eq_true, if_false, h2]
      exact hA
    have hmatch : matchIncompleteFunctionName (get_left_text text cursor)
        = some W := by
      simp only [matchIncompleteFunctionName]
      rw [hrun, hbefore]
      have hWe : W.isEmpty = false := by
        cases W with
        | nil => exact absurd rfl hW
        | cons a as => rfl
      simp [hWe, hchain]
    unfold get_incomplete_function_name
    rw [hmatch]

/-- Witness for C8, instantiating the general statement at `"x().y"`. -/
theorem C8_witness : get_incomplete_function_name "x().y".data 5 = "y".data :=
  C8_chain_dot_function_name.2 "x().y".data 5 "x(".data "y".data
    (by decide) (by decide) (by decide)

/-- C9: for an empty buffer with the cursor at offset 0, the three proposal
operations return the empty list (for any symbol table, and any registry
without an empty-named function, which no registry of identifier-named DSL
functions has); the analyzer and proposal operations are total Lean
functions, embedding the no-raise policy. -/
theorem C9_empty_buffer_no_proposals :
    ∀ (reg : FunctionRegistry) (symbolNames : List String),
      reg.lookup "" = none →
      propose_function_names reg ([] : List Char) 0 = [] ∧
      propose_symbols symbolNames ([] : List Char) 0 = [] ∧
      propose_function_parameters reg ([] : List Char) 0 = [] := by
  intro reg symbolNames hreg
  refine ⟨?_, ?_, ?_⟩
  · have h : get_incomplete_function_name ([] : List Char) 0 = [] := by decide
    simp [propose_function_names, h]
  · have h : get_incomplete_parameter ([] : List Char) 0 = none := by decide
    simp [propose_symbols, h]
  · have h : get_left_text ([] : List Char) 0 = [] := by decide
    simp [propose_function_parameters, h, find_unmatched_open,
      findall_used_parameters, findallNameEqAux, hreg]

/-- Witness for C9 at a concrete registry and symbol table. -/
theorem C9_witness :
    propose_function_names regKey ([] : List Char) 0 = [] ∧
    propose_symbols ["symbol"] ([] : List Char) 0 = [] ∧
    propose_function_parameters regKey ([] : List Char) 0 = [] :=
  C9_empty_buffer_no_proposals regKey ["symbol"] (by decide)

/-- C10: the two analyzer entry points use different no-match sentinels:
whenever the trailing-identifier pattern fails, `get_incomplete_function_name`
returns the empty string while `get_incomplete_parameter` returns `None`;
in particular `get_incomplete_parameter` never returns the empty string,
and when the left text has no trailing identifier at all both report their
respective sentinel. -/
theorem C10_sentinels :
    ∀ (text : List Char) (cursor : Nat),
      (matchIncompleteFunctionName (get_left_text text cursor) = none →
        get_incomplete_function_name text cursor = []) ∧
      get_incomplete_parameter text cursor ≠ some [] ∧
      (trailingWordRun (get_left_text text cursor) = [] →
        get_incomplete_function_name text cursor = [] ∧
        get_incomplete_parameter text cursor = none) := by
  intro text cursor
  refine ⟨?_, ?_, ?_⟩
  · intro h
    unfold get_incomplete_function_name
    rw [h]
  · unfold get_incomplete_parameter matchIncompleteParameter
    simp only []
    split_ifs with h1 h2 h3
    · simp
    · intro heq
      have hrun := Option.some.inj heq
      rw [hrun] at h1
      simp at h1
    · intro heq
      have hrun := Option.some.inj heq
      rw [hrun] at h1
      simp at h1
    · simp
  · intro h
    have hm : matchIncompleteFunctionName (get_left_text text cursor) = none := by
      simp only [matchIncompleteFunctionName]
      rw [h]
      simp
    have hp : matchIncompleteParameter (get_left_text text cursor) = none := by
      simp only [matchIncompleteParameter]
      rw [h]
      simp
    constructor
    · unfold get_incomplete_function_name
      rw [hm]
    · unfold get_incomplete_parameter
      rw [hp]

/-- Witness for C10 at `"foo)"` (a left text with no trailing
identifier). -/
theorem C10_witness :
    get_incomplete_function_name "foo)".data 4 = [] ∧
    get_incomplete_parameter "foo)".data 4 = none ∧
    get_incomplete_parameter "foo)".data 4 ≠ some [] :=
  ⟨((C10_sentinels "foo)".data 4).2.2 (by decide)).1,
   ((C10_sentinels "foo)".data 4).2.2 (by decide)).2,
   (C10_sentinels "foo)".data 4).2.1⟩

/-- C1: a key event observed during a focused recording session whose
combination already has an entry in the mapping store makes the recorder
surface the duplicate-combination status message and return before
displaying the key and before any store change: the displayed key and the
store are unchanged by the event.  (The code fires this guard for *any*
existing entry, in particular for one owned by a different slot.) -/
theorem C1_duplicate_combination_blocks (env : RecorderEnv K)
    (s : RecorderState K) (k : K) (existing : String)
    (hw : s.waiting_for_input = true)
    (hdup : s.custom_mapping.lookup k = some existing) :
    (consume_newest_keycode env s (some k)).statuses
        = [(StatusCtx.keycode, dup_message env k existing)] ∧
    (consume_newest_keycode env s (some k)).change_call = none ∧
    (consume_newest_keycode env s (some k)).state.displayed_key
        = s.displayed_key ∧
    (consume_newest_keycode env s (some k)).state.custom_mapping
        = s.custom_mapping := by
  have hp := switch_focus_preserves s
  have hw1 : (switch_focus_if_complete s).1.waiting_for_input = true := by
    rw [hp.2.2.2.1, hw]
  have hl1 : (switch_focus_if_complete s).1.custom_mapping.lookup k
      = some existing := by rw [hp.1]; exact hdup
  simp only [consume_newest_keycode, hw1, hl1, Bool.not_true,
    Bool.false_eq_true, if_false]
  exact ⟨by trivial, by trivial, hp.2.1, hp.1⟩

/-- Witness for C1: store already maps combination `1` to `"x"`. -/
theorem C1_witness :
    (consume_newest_keycode envNat sDup (some 1)).statuses
        = [(StatusCtx.keycode, dup_message envNat 1 "x")] ∧
    (consume_newest_keycode envNat sDup (some 1)).change_call = none ∧
    (consume_newest_keycode envNat sDup (some 1)).state.displayed_key
        = sDup.displayed_key ∧
    (consume_newest_keycode envNat sDup (some 1)).state.custom_mapping
        = sDup.custom_mapping :=
  C1_duplicate_combination_blocks envNat sDup 1 "x" (by decide) (by decide)

/-- C2 counterexample: a focused slot showing key `1` with non-empty output
text receives the event for combination `5`, which a different slot already
maps — the duplicate guard returns first, so the new combination is *not*
displayed and no store change happens even though the output text is
non-empty, contrary to the claim's unconditional
"the new combination is always displayed" and its `change`-iff. -/
theorem C2_counterexample :
    ¬(((consume_newest_keycode envNat sOther (some 5)).state.displayed_key
          = some 5) ∧
      (((consume_newest_keycode envNat sOther (some 5)).change_call ≠ none)
          ↔ sOther.symbol_text ≠ "")) := by
  decide

/-- C2 (amended): for a recorded key event that changes the slot's
combination *and does not duplicate an existing store entry*, the new
combination is displayed, and `change` is called — with the new key, the
output text and the previous key — if and only if the slot's output text is
non-empty. -/
theorem C2_display_and_commit (env : RecorderEnv K) (s : RecorderState K)
    (k : K) (hw : s.waiting_for_input = true)
    (hnew : s.custom_mapping.lookup k = none)
    (hdiff : s.displayed_key ≠ some k) :
    (consume_newest_keycode env s (some k)).state.displayed_key = some k ∧
    ((consume_newest_keycode env s (some k)).change_call ≠ none
        ↔ s.symbol_text ≠ "") ∧
    (s.symbol_text ≠ "" → (consume_newest_keycode env s (some k)).change_call
        = some (k, s.symbol_text, s.displayed_key)) := by
  have hp := switch_focus_preserves s
  have hw1 : (switch_focus_if_complete s).1.waiting_for_input = true := by
    rw [hp.2.2.2.1, hw]
  have hl1 : (switch_focus_if_complete s).1.custom_mapping.lookup k = none := by
    rw [hp.1]; exact hnew
  have hd1 : (switch_focus_if_complete s).1.displayed_key = s.displayed_key :=
    hp.2.1
  have hsym : (switch_focus_if_complete s).1.symbol_text = s.symbol_text :=
    hp.2.2.1
  have hne : ¬(some k = (switch_focus_if_complete s).1.displayed_key) := by
    rw [hd1]
    intro h
    exact hdiff h.symm
  simp only [consume_newest_keycode, hw1, hl1, Bool.not_true,
    Bool.false_eq_true, if_false, hne]
  by_cases hempty : s.symbol_text = ""
  · have h1 : (switch_focus_if_complete s).1.symbol_text = "" := by
      rw [hsym, hempty]
    simp [h1, hempty, hd1]
  · have h1 : ¬((switch_focus_if_complete s).1.symbol_text = "") := by
      rw [hsym]; exact hempty
    simp [h1, hempty, hd1, hsym]

/-- Witness for C2 (amended): a fresh combination `2` recorded into a slot
showing `1` with non-empty output text. -/
theorem C2_witness :
    (consume_newest_keycode envNat sOther (some 2)).state.displayed_key
        = some 2 ∧
    ((consume_newest_keycode envNat sOther (some 2)).change_call ≠ none
        ↔ sOther.symbol_text ≠ "") ∧
    (sOther.symbol_text ≠ "" →
      (consume_newest_keycode envNat sOther (some 2)).change_call
        = some (2, sOther.symbol_text, sOther.displayed_key)) :=
  C2_display_and_commit envNat sOther 2 (by decide) (by decide) (by decide)

/-- C6: while the recording toggle is not active, the recorder consumes
nothing — for any delivered event (or none): no status message, no store
change, no focus-switch scheduling, and the displayed key, store and
output text are unchanged.  This holds in every state, hence in every
reachable one. -/
theorem C6_unfocused_consumes_nothing (env : RecorderEnv K)
    (s : RecorderState K) (key : Option K)
    (hw : s.waiting_for_input = false) :
    (consume_newest_keycode env s key).statuses = [] ∧
    (consume_newest_keycode env s key).change_call = none ∧
    (consume_newest_keycode env s key).idle_focus_switches = 0 ∧
    (consume_newest_keycode env s key).state.displayed_key
        = s.displayed_key ∧
    (consume_newest_keycode env s key).state.custom_mapping
        = s.custom_mapping ∧
    (consume_newest_keycode env s key).state.symbol_text = s.symbol_text := by
  have hp := switch_focus_preserves s
  have hw1 : (switch_focus_if_complete s).1.waiting_for_input = false := by
    rw [hp.2.2.2.1, hw]
  have hs2 : (switch_focus_if_complete s).2 = 0 := by
    unfold switch_focus_if_complete
    rw [hw]
    simp
  cases key with
  | none =>
    simp only [consume_newest_keycode]
    exact ⟨by trivial, by trivial, hs2, hp.2.1, hp.1, hp.2.2.1⟩
  | some k =>
    simp only [consume_newest_keycode, hw1, Bool.not_false, if_true]
    exact ⟨by trivial, by trivial, hs2, hp.2.1, hp.1, hp.2.2.1⟩

/-- Witness for C6: unfocused toggle, event for combination `1`
delivered. -/
theorem C6_witness :
    (consume_newest_keycode envNat
        ⟨[(5, "x")], some 1, "y", false, false, false, false⟩ (some 1)).statuses
      = [] ∧
    (consume_newest_keycode envNat
        ⟨[(5, "x")], some 1, "y", false, false, false, false⟩
        (some 1)).change_call = none ∧
    (consume_newest_keycode envNat
        ⟨[(5, "x")], some 1, "y", false, false, false, false⟩
        (some 1)).idle_focus_switches = 0 ∧
    (consume_newest_keycode envNat
        ⟨[(5, "x")], some 1, "y", false, false, false, false⟩
        (some 1)).state.displayed_key
      = (⟨[(5, "x")], some 1, "y", false, false, false, false⟩
          : RecorderState Nat).displayed_key ∧
    (consume_newest_keycode envNat
        ⟨[(5, "x")], some 1, "y", false, false, false, false⟩
        (some 1)).state.custom_mapping
      = (⟨[(5, "x")], some 1, "y", false, false, false, false⟩
          : RecorderState Nat).custom_mapping ∧
    (consume_newest_keycode envNat
        ⟨[(5, "x")], some 1, "y", false, false, false, false⟩
        (some 1)).state.symbol_text
      = (⟨[(5, "x")], some 1, "y", false, false, false, false⟩
          : RecorderState Nat).symbol_text :=
  C6_unfocused_consumes_nothing envNat
    ⟨[(5, "x")], some 1, "y", false, false, false, false⟩ (some 1) (by decide)

/-- C7: when a poll finds all keys released in a focused session after at
least one event arrived with a combination displayed, the focus switch is
only scheduled on the UI loop's idle queue — exactly one scheduling, no
synchronous focus change — and the poll resets `input_has_arrived`, so the
immediately following no-event poll schedules nothing: exactly once per
completed recording. -/
theorem C7_completion_defers_focus_once (env : RecorderEnv K)
    (s : RecorderState K) (hw : s.waiting_for_input = true)
    (hrel : s.unreleased_keys_empty = true)
    (harr : s.input_has_arrived = true)
    (hkey : s.displayed_key.isSome = true) :
    (consume_newest_keycode env s none).idle_focus_switches = 1 ∧
    (consume_newest_keycode env s none).state.focused_text_input
        = s.focused_text_input ∧
    (consume_newest_keycode env s none).state.input_has_arrived = false ∧
    (consume_newest_keycode env s none
        |>.state |> (fun s2 => (consume_newest_keycode env s2
            none).idle_focus_switches)) = 0 := by
  have hstep : switch_focus_if_complete s
      = ({ s with input_has_arrived := false }, 1) := by
    unfold switch_focus_if_complete
    rw [hw, hrel, harr, hkey]
    simp
  refine ⟨?_, ?_, ?_, ?_⟩
  · simp only [consume_newest_keycode, hstep]
  · simp only [consume_newest_keycode, hstep]
  · simp only [consume_newest_keycode, hstep]
  · simp only [consume_newest_keycode, hstep]
    unfold switch_focus_if_complete
    simp [hw, hrel]

/-- Witness for C7 at a concrete completed recording. -/
theorem C7_witness :
    (consume_newest_keycode envNat sDone none).idle_focus_switches = 1 ∧
    (consume_newest_keycode envNat sDone none).state.focused_text_input
        = sDone.focused_text_input ∧
    (consume_newest_keycode envNat sDone none).state.input_has_arrived
        = false ∧
    (consume_newest_keycode envNat sDone none
        |>.state |> (fun s2 => (consume_newest_keycode envNat s2
            none).idle_focus_switches)) = 0 :=
  C7_completion_defers_focus_once envNat sDone (by decide) (by decide)
    (by decide) (by decide)
